import Mathlib

/-!
Verification of the network-utilization and statistical-multiplexing
calculators.  The Python sources are embedded shallowly: numbers become
exact rationals, Python lists become Lean lists, and every operation that
can raise an exception in Python (division by zero, indexing an empty
list) is modelled by an Option result, with none standing for the raised
exception.
-/

/-- Embeds calculate_transmission_time from NetworkUtilizationCalculator.py.
The source multiplies the length by 8, the rate by 1000 * 1000, divides,
and multiplies by 1000.  A zero converted rate makes the Python division
raise ZeroDivisionError, modelled here as none. -/
def calculate_transmission_time (length_in_bytes rate_in_Mbps : ℚ) : Option ℚ :=
  let rate := rate_in_Mbps * 1000 * 1000
  if rate = 0 then none
  else some (length_in_bytes * 8 / rate * 1000)

/-- Embeds calculate_network_utilization from NetworkUtilizationCalculator.py.
The window argument is optional exactly as in the source; the divisions
appear in source order: first transmission_time / total_time, then, when a
window is given, window_size / packet_length.  Each division by zero is
modelled as none. -/
def calculate_network_utilization (length_in_bytes rate_in_Mbps rtt_in_ms : ℚ)
    (window_size : Option ℚ) : Option ℚ :=
  match calculate_transmission_time length_in_bytes rate_in_Mbps with
  | none => none
  | some transmission_time =>
    let total_time := transmission_time + rtt_in_ms
    if total_time = 0 then none
    else
      let utilization := transmission_time / total_time
      match window_size with
      | none => some utilization
      | some w =>
        if length_in_bytes = 0 then none
        else some (utilization * (w / length_in_bytes))

/-!
Embedding of TransmissionTimeStatisticalMultiplexingCalculator.py.

The source builds a list with repeated heapq.heappush calls and then reads
the resulting array by index without ever popping.  heappush is therefore
embedded faithfully: append the item at the end and sift it up, where the
sift of heapq (which carries the new item and shifts greater parents down)
is realised by the equivalent chain of parent-child swaps, producing the
same array.  Python tuple comparison on (packet_count, turn_order) pairs
is the lexicographic order pairLt.
-/

/-- Conversion helper kibs_to_bytes from the source. -/
def kibs_to_bytes (kibs : ℚ) : ℚ := kibs * 1024

/-- Conversion helper mibs_to_bytes from the source. -/
def mibs_to_bytes (mibs : ℚ) : ℚ := mibs * 1024 * 1024

/-- Python tuple comparison on (packet_count, turn_order) pairs:
lexicographic, first component first. -/
def pairLt (a b : ℤ × ℕ) : Bool :=
  decide (a.1 < b.1) || (decide (a.1 = b.1) && decide (a.2 < b.2))

/-- The sift-up loop of heapq after an append at position pos: while the new
item at pos is strictly smaller than its parent at (pos - 1) / 2, exchange
them and continue from the parent.  The fuel argument starts at pos and
bounds the number of iterations; the parent index is strictly smaller than
pos, so the fuel never runs out before pos reaches the root. -/
def siftdownGo : ℕ → List (ℤ × ℕ) → ℕ → List (ℤ × ℕ)
  | _, heap, 0 => heap
  | 0, heap, _ + 1 => heap
  | fuel + 1, heap, pos + 1 =>
    let parentpos := pos / 2
    match heap[pos + 1]?, heap[parentpos]? with
    | some newitem, some parent =>
      if pairLt newitem parent then
        siftdownGo fuel ((heap.set (pos + 1) parent).set parentpos newitem) parentpos
      else heap
    | _, _ => heap

/-- Sift the element at index pos of heap up to its place, as heapq does
after appending. -/
def siftdown (heap : List (ℤ × ℕ)) (pos : ℕ) : List (ℤ × ℕ) :=
  siftdownGo pos heap pos

/-- heapq.heappush: append the item and sift it up from the last position. -/
def heappush (heap : List (ℤ × ℕ)) (item : ℤ × ℕ) : List (ℤ × ℕ) :=
  siftdown (heap ++ [item]) heap.length

/-- The list of needed packet counts, one per file: the ceiling of file size
over payload size (line 57 of the source). -/
def neededPackets (packet_payload_size_bytes : ℚ) (file_sizes_bytes : List ℚ) : List ℤ :=
  file_sizes_bytes.map fun size_in_bytes => ⌈size_in_bytes / packet_payload_size_bytes⌉

/-- The heap-building loop of lines 63 to 66: for each (turn_order,
packet_count) of enumerate(needed_packets), heappush the pair
(packet_count, turn_order). -/
def buildHeap (needed_packets : List ℤ) : List (ℤ × ℕ) :=
  needed_packets.enum.foldl (fun heap x => heappush heap (x.2, x.1)) []

/-- The loop of lines 82 to 103 of the source, processing the heap array
from index 1 onward.  Crucially, the source reads
total_packets_at_each_file_done[index - 1] at line 87 but never appends to
that list, which stays at its initial single element, so the read raises
IndexError as soon as index reaches 2; the lookup is therefore modelled
with getElem?, and a failed lookup aborts the whole call with none, as the
propagating Python exception does.  A successful iteration contributes
total = (count - prev_total) * (sharing_computers_count - index) + prev_total
packets and the completion time total * bits / rate + start. -/
def multiplexLoop (sharing_computers_count : ℤ)
    (total_packet_size_bits total_link_rate_bps starting_time_seconds : ℚ)
    (total_packets_at_each_file_done : List ℤ) :
    List (ℤ × ℕ) → ℕ → Option (List (ℚ × ℕ))
  | [], _ => some []
  | (total_packets_needed_this_file, turn_order) :: rest, index =>
    match total_packets_at_each_file_done[index - 1]? with
    | none => none
    | some total_packets_at_previous_done =>
      let remaining := total_packets_needed_this_file - total_packets_at_previous_done
      let to_finish := remaining * (sharing_computers_count - (index : ℤ))
      let total_packets_at_file_done := to_finish + total_packets_at_previous_done
      let time_when_file_done_seconds :=
        (total_packets_at_file_done : ℚ) * total_packet_size_bits / total_link_rate_bps
            + starting_time_seconds
      match multiplexLoop sharing_computers_count total_packet_size_bits total_link_rate_bps
          starting_time_seconds total_packets_at_each_file_done rest (index + 1) with
      | none => none
      | some tail => some ((time_when_file_done_seconds, turn_order) :: tail)

/-- Embeds calculate_transmission_time_statistical_multiplexing.  The guards
model the Python exceptions: an empty file list makes line 71 raise
IndexError, a zero payload makes the ceiling division of line 57 raise
ZeroDivisionError, and a zero link rate makes the division of line 75
raise ZeroDivisionError.  The list total_packets_at_each_file_done is
created at line 74 with the single entry of the first file and never grows,
so the loop (multiplexLoop) raises IndexError for every input of three or
more files; all exceptions are modelled as none. -/
def calculate_transmission_time_statistical_multiplexing
    (total_link_rate_Mbps : ℚ) (sharing_computers_count : ℤ)
    (starting_time_seconds : ℚ) (file_sizes_bytes : List ℚ)
    (packet_payload_size_bytes packet_header_size_bytes : ℚ) :
    Option (List (ℚ × ℕ)) :=
  if file_sizes_bytes = [] then none
  else if packet_payload_size_bytes = 0 then none
  else
    let total_link_rate_bps := total_link_rate_Mbps * 1000 * 1000
    if total_link_rate_bps = 0 then none
    else
      let needed_packets := neededPackets packet_payload_size_bytes file_sizes_bytes
      let total_packet_size_bits := (packet_header_size_bytes + packet_payload_size_bytes) * 8
      match buildHeap needed_packets with
      | [] => none
      | (packet_count, turn_order) :: rest =>
        let total_packets_at_file_done := packet_count * sharing_computers_count
        let total_packets_at_each_file_done := [total_packets_at_file_done]
        let time_when_file_done_seconds :=
          (total_packets_at_file_done : ℚ) * total_packet_size_bits / total_link_rate_bps
              + starting_time_seconds
        match multiplexLoop sharing_computers_count total_packet_size_bits total_link_rate_bps
            starting_time_seconds total_packets_at_each_file_done rest 1 with
        | none => none
        | some tail => some ((time_when_file_done_seconds, turn_order) :: tail)

/-- The processing order and cumulative totals that steps 3 to 5 of the spec
describe: given the (needed_packets, turn_order) pairs in sorted order, the
first job accounts for needed_packets * sharing_computers_count packets,
and the job at sorted position k has
total = (needed_packets - prev_total) * (sharing_computers_count - k) + prev_total.
This recursion computes the totals from position k onward given the
previous cumulative total. -/
def spec_schedule_totals_go (sharing_computers_count : ℤ) :
    List (ℤ × ℕ) → ℕ → ℤ → List ℤ
  | [], _, _ => []
  | (ck, _) :: rest, k, prev =>
    let tot := (ck - prev) * (sharing_computers_count - (k : ℤ)) + prev
    tot :: spec_schedule_totals_go sharing_computers_count rest (k + 1) tot

/-- The full list of cumulative packet totals of the spec algorithm, one per
sorted position: the first is needed_packets * sharing_computers_count, the
rest follow the recurrence of spec step 5. -/
def spec_schedule_totals (sharing_computers_count : ℤ) : List (ℤ × ℕ) → List ℤ
  | [] => []
  | (c0, _) :: rest =>
    (c0 * sharing_computers_count) ::
      spec_schedule_totals_go sharing_computers_count rest 1 (c0 * sharing_computers_count)

/-- Replacing the element at index j by a and moving the old element to the
front permutes a cons of the original list. -/
theorem cons_get_set_perm {α : Type*} (l : List α) : ∀ (j : ℕ) (a : α) (h : j < l.length),
    List.Perm (l.get ⟨j, h⟩ :: l.set j a) (a :: l) := by
  induction l with
  | nil => intro j a h; exact absurd h (by simp)
  | cons b tl ih =>
    intro j a h
    cases j with
    | zero => exact List.Perm.swap a b tl
    | succ j =>
      have h1 : j < tl.length := by simpa using h
      show List.Perm (tl.get ⟨j, h1⟩ :: b :: tl.set j a) (a :: b :: tl)
      exact (List.Perm.swap b (tl.get ⟨j, h1⟩) (tl.set j a)).trans
        (((ih j a h1).cons b).trans (List.Perm.swap a b tl))

/-- Exchanging the elements at two indices of a list is a permutation. -/
theorem set_set_swap_perm {α : Type*} (l : List α) : ∀ (i j : ℕ) (hi : i < l.length)
    (hj : j < l.length), i < j →
    List.Perm ((l.set j (l.get ⟨i, hi⟩)).set i (l.get ⟨j, hj⟩)) l := by
  induction l with
  | nil => intro i j hi hj hij; exact absurd hj (by simp)
  | cons b tl ih =>
    intro i j hi hj hij
    cases i with
    | zero =>
      cases j with
      | zero => exact absurd hij (by simp)
      | succ j =>
        have hj1 : j < tl.length := by simpa using hj
        show List.Perm (tl.get ⟨j, hj1⟩ :: tl.set j b) (b :: tl)
        exact cons_get_set_perm tl j b hj1
    | succ i =>
      cases j with
      | zero => exact absurd hij (by omega)
      | succ j =>
        have hi1 : i < tl.length := by simpa using hi
        have hj1 : j < tl.length := by simpa using hj
        show List.Perm (b :: (tl.set j (tl.get ⟨i, hi1⟩)).set i (tl.get ⟨j, hj1⟩)) (b :: tl)
        exact (ih i j hi1 hj1 (by omega)).cons b

/-- The sift-up loop only exchanges elements, so its result is a permutation
of its input. -/
theorem siftdownGo_perm : ∀ (fuel : ℕ) (heap : List (ℤ × ℕ)) (pos : ℕ),
    List.Perm (siftdownGo fuel heap pos) heap := by
  intro fuel
  induction fuel with
  | zero =>
    intro heap pos
    cases pos with
    | zero => simp [siftdownGo]
    | succ p => simp [siftdownGo]
  | succ f ih =>
    intro heap pos
    cases pos with
    | zero => simp [siftdownGo]
    | succ p =>
      rw [siftdownGo]
      cases h1 : heap[p + 1]? with
      | none => simp [h1]
      | some newitem =>
        cases h2 : heap[p / 2]? with
        | none => simp [h1, h2]
        | some parent =>
          simp only [h1, h2]
          by_cases hlt : pairLt newitem parent
          · simp only [hlt, if_true]
            rw [List.getElem?_eq_some] at h1 h2
            obtain ⟨hp1, he1⟩ := h1
            obtain ⟨hp2, he2⟩ := h2
            have e : (heap.set (p + 1) parent).set (p / 2) newitem =
                (heap.set (p + 1) (heap.get ⟨p / 2, hp2⟩)).set (p / 2)
                  (heap.get ⟨p + 1, hp1⟩) := by
              rw [List.get_eq_getElem, List.get_eq_getElem, he1, he2]
            refine (ih _ _).trans ?_
            rw [e]
            exact set_set_swap_perm heap (p / 2) (p + 1) hp2 hp1 (by omega)
          · simp [hlt]

/-- heappush produces a permutation of the pushed item together with the old
heap. -/
theorem heappush_perm (heap : List (ℤ × ℕ)) (item : ℤ × ℕ) :
    List.Perm (heappush heap item) (item :: heap) := by
  unfold heappush siftdown
  exact (siftdownGo_perm _ _ _).trans (List.perm_append_singleton item heap)

/-- Folding heappush over a list of enumerated counts permutes the
accumulator extended by the swapped pairs. -/
theorem foldl_heappush_perm : ∀ (l : List (ℕ × ℤ)) (acc : List (ℤ × ℕ)),
    List.Perm (l.foldl (fun heap x => heappush heap (x.2, x.1)) acc)
      (acc ++ l.map fun x => (x.2, x.1)) := by
  intro l
  induction l with
  | nil => intro acc; simp
  | cons x xs ih =>
    intro acc
    simp only [List.foldl_cons, List.map_cons]
    refine (ih _).trans ?_
    refine (List.Perm.append_right _ (heappush_perm acc (x.2, x.1))).trans ?_
    exact List.perm_middle.symm

/-- The heap array is a permutation of the (count, turn_order) pairs of the
needed-packet list. -/
theorem buildHeap_perm (needed_packets : List ℤ) :
    List.Perm (buildHeap needed_packets)
      (needed_packets.enum.map fun x => (x.2, x.1)) := by
  unfold buildHeap
  simpa using foldl_heappush_perm needed_packets.enum []

/-- Pushing a single element builds the one-element heap. -/
theorem buildHeap_one (c : ℤ) : buildHeap [c] = [(c, 0)] := rfl

/-- A two-element heap build: the second push swaps exactly when its count is
strictly smaller (on a tie the later turn order is not smaller in the tuple
order), so a two-element heap array is sorted, ties broken by ascending
turn order. -/
theorem buildHeap_two (c0 c1 : ℤ) :
    buildHeap [c0, c1] = if c1 < c0 then [(c1, 1), (c0, 0)] else [(c0, 0), (c1, 1)] := by
  by_cases h : c1 < c0
  · simp [buildHeap, heappush, siftdown, siftdownGo, pairLt, List.enum, List.enumFrom, h]
  · simp [buildHeap, heappush, siftdown, siftdownGo, pairLt, List.enum, List.enumFrom, h,
      ne_of_gt, lt_asymm]

/-- The source raises IndexError at line 87 on every loop iteration with
index at least 2: the totals list still holds exactly one element. -/
theorem multiplexLoop_index_ge_two (sharing : ℤ) (bits rate start : ℚ) (t0 : ℤ)
    (x : ℤ × ℕ) (xs : List (ℤ × ℕ)) (index : ℕ) (h : 2 ≤ index) :
    multiplexLoop sharing bits rate start [t0] (x :: xs) index = none := by
  obtain ⟨c, t⟩ := x
  have hnone : ([t0] : List ℤ)[index - 1]? = none := by
    rw [List.getElem?_eq_none]
    simp only [List.length_singleton]
    omega
  simp [multiplexLoop, hnone]

/-- With two or more heap elements left after the first, the loop reaches
index 2 and fails. -/
theorem multiplexLoop_two_cons_none (sharing : ℤ) (bits rate start : ℚ) (t0 : ℤ)
    (x y : ℤ × ℕ) (ys : List (ℤ × ℕ)) :
    multiplexLoop sharing bits rate start [t0] (x :: y :: ys) 1 = none := by
  obtain ⟨c, t⟩ := x
  have h2 : multiplexLoop sharing bits rate start [t0] (y :: ys) 2 = none :=
    multiplexLoop_index_ge_two sharing bits rate start t0 y ys 2 (le_refl 2)
  simp [multiplexLoop, h2]

/-- For every input of three or more files the scheduler raises IndexError
at line 87 on the third loop iteration and returns no sequence. -/
theorem scheduler_three_or_more_files_none (rate : ℚ) (sharing : ℤ) (start : ℚ)
    (a b c : ℚ) (tl : List ℚ) (payload header : ℚ) :
    calculate_transmission_time_statistical_multiplexing rate sharing start
      (a :: b :: c :: tl) payload header = none := by
  by_cases hp : payload = 0
  · simp [calculate_transmission_time_statistical_multiplexing, hp]
  by_cases hr : rate * 1000 * 1000 = 0
  · simp [calculate_transmission_time_statistical_multiplexing, hp, hr]
  have hlen : (buildHeap (neededPackets payload (a :: b :: c :: tl))).length =
      3 + tl.length := by
    rw [(buildHeap_perm _).length_eq]
    simp [neededPackets]
    omega
  simp only [calculate_transmission_time_statistical_multiplexing,
    if_neg (List.cons_ne_nil a (b :: c :: tl)), if_neg hp, if_neg hr]
  cases hh : buildHeap (neededPackets payload (a :: b :: c :: tl)) with
  | nil =>
    rw [hh] at hlen
  | cons hd rest =>
    cases rest with
    | nil =>
      rw [hh] at hlen
      simp only [List.length_cons, List.length_nil] at hlen
      omega
    | cons hd2 rest2 =>
      cases rest2 with
      | nil =>
        rw [hh] at hlen
        simp only [List.length_cons, List.length_nil] at hlen
        omega
      | cons hd3 rest3 =>
        obtain ⟨pc, to₀⟩ := hd
        simp [multiplexLoop_two_cons_none]

/-- The scheduler on a single file: one round of the first-element formula,
and the loop returns immediately. -/
theorem scheduler_one_file (rate : ℚ) (sharing : ℤ) (start a payload header : ℚ)
    (hp : payload ≠ 0) (hr : rate * 1000 * 1000 ≠ 0) :
    calculate_transmission_time_statistical_multiplexing rate sharing start [a]
      payload header =
      some [(((⌈a / payload⌉ * sharing : ℤ) : ℚ) * ((header + payload) * 8) /
        (rate * 1000 * 1000) + start, 0)] := by
  have hone : neededPackets payload [a] = [⌈a / payload⌉] := by simp [neededPackets]
  simp only [calculate_transmission_time_statistical_multiplexing,
    if_neg (List.cons_ne_nil a []), if_neg hp, if_neg hr, hone, buildHeap_one]
  simp [multiplexLoop]

/-- The scheduler on two files: the heap array is the sorted pair, the first
output uses the first-element formula, the second follows the line 90 to 92
recurrence with the first total as previous total. -/
theorem scheduler_two_files (rate : ℚ) (sharing : ℤ) (start a b payload header : ℚ)
    (hp : payload ≠ 0) (hr : rate * 1000 * 1000 ≠ 0) :
    calculate_transmission_time_statistical_multiplexing rate sharing start [a, b]
      payload header =
      if ⌈b / payload⌉ < ⌈a / payload⌉ then
        some [(((⌈b / payload⌉ * sharing : ℤ) : ℚ) * ((header + payload) * 8) /
            (rate * 1000 * 1000) + start, 1),
          ((((⌈a / payload⌉ - ⌈b / payload⌉ * sharing) * (sharing - 1) +
            ⌈b / payload⌉ * sharing : ℤ) : ℚ) * ((header + payload) * 8) /
            (rate * 1000 * 1000) + start, 0)]
      else
        some [(((⌈a / payload⌉ * sharing : ℤ) : ℚ) * ((header + payload) * 8) /
            (rate * 1000 * 1000) + start, 0),
          ((((⌈b / payload⌉ - ⌈a / payload⌉ * sharing) * (sharing - 1) +
            ⌈a / payload⌉ * sharing : ℤ) : ℚ) * ((header + payload) * 8) /
            (rate * 1000 * 1000) + start, 1)] := by
  have htwo : neededPackets payload [a, b] = [⌈a / payload⌉, ⌈b / payload⌉] := by
    simp [neededPackets]
  simp only [calculate_transmission_time_statistical_multiplexing,
    if_neg (List.cons_ne_nil a [b]), if_neg hp, if_neg hr, htwo, buildHeap_two]
  by_cases hlt : ⌈b / payload⌉ < ⌈a / payload⌉
  · simp [hlt, multiplexLoop]
  · simp [hlt, multiplexLoop]

/-- Claim C1: whenever the scheduler returns a sequence, the needed packet
counts of the senders, read off in output order, are non-decreasing, and
among equal counts the turn orders appear ascending (strict lexicographic
increase of the (count, turn_order) keys).  The source raises IndexError at
line 87 for every input of three or more files and returns nothing there;
for one or two files the heap array it indexes by position is genuinely the
sorted order. -/
theorem C1_output_order_sorted (rate : ℚ) (sharing : ℤ) (start : ℚ)
    (files : List ℚ) (payload header : ℚ) (out : List (ℚ × ℕ))
    (h : calculate_transmission_time_statistical_multiplexing rate sharing start files
      payload header = some out) :
    List.Chain' (fun p q : ℚ × ℕ =>
      ∃ cp cq : ℤ, (neededPackets payload files)[p.2]? = some cp ∧
        (neededPackets payload files)[q.2]? = some cq ∧
        (cp < cq ∨ (cp = cq ∧ p.2 < q.2))) out := by
  by_cases hp : payload = 0
  · simp [calculate_transmission_time_statistical_multiplexing, hp] at h
  by_cases hr : rate * 1000 * 1000 = 0
  · simp [calculate_transmission_time_statistical_multiplexing, hp, hr] at h
  rcases files with _ | ⟨a, _ | ⟨b, _ | ⟨c, tl⟩⟩⟩
  · simp [calculate_transmission_time_statistical_multiplexing] at h
  · rw [scheduler_one_file rate sharing start a payload header hp hr] at h
    obtain rfl : _ = out := Option.some_inj.mp h
    simp
  · rw [scheduler_two_files rate sharing start a b payload header hp hr] at h
    by_cases hlt : ⌈b / payload⌉ < ⌈a / payload⌉
    · rw [if_pos hlt] at h
      obtain rfl : _ = out := Option.some_inj.mp h
      refine List.chain'_pair.mpr ⟨⌈b / payload⌉, ⌈a / payload⌉, ?_, ?_, Or.inl hlt⟩
      · simp [neededPackets]
      · simp [neededPackets]
    · rw [if_neg hlt] at h
      obtain rfl : _ = out := Option.some_inj.mp h
      refine List.chain'_pair.mpr ⟨⌈a / payload⌉, ⌈b / payload⌉, ?_, ?_, ?_⟩
      · simp [neededPackets]
      · simp [neededPackets]
      · rcases lt_or_eq_of_le (not_lt.mp hlt) with h1 | h1
        · exact Or.inl h1
        · exact Or.inr ⟨h1, by norm_num⟩
  · rw [scheduler_three_or_more_files_none] at h
    exact absurd h (by simp)

theorem C1_output_order_sorted_witness :
    calculate_transmission_time_statistical_multiplexing 8 2 0 [2000, 1000] 1000 0 =
      some [(1 / 500, 1), (1 / 500, 0)] ∧
    List.Chain' (fun p q : ℚ × ℕ =>
      ∃ cp cq : ℤ, (neededPackets 1000 [2000, 1000])[p.2]? = some cp ∧
        (neededPackets 1000 [2000, 1000])[q.2]? = some cq ∧
        (cp < cq ∨ (cp = cq ∧ p.2 < q.2))) [(1 / 500, 1), (1 / 500, 0)] := by
  have h : calculate_transmission_time_statistical_multiplexing 8 2 0 [2000, 1000] 1000 0 =
      some [(1 / 500, 1), (1 / 500, 0)] := by
    rw [scheduler_two_files 8 2 0 2000 1000 1000 0 (by norm_num) (by norm_num)]
    norm_num [Int.ceil_eq_iff]
  exact ⟨h, C1_output_order_sorted 8 2 0 [2000, 1000] 1000 0 [(1 / 500, 1), (1 / 500, 0)] h⟩

/-- Claim C2: whenever the scheduler returns a sequence, that sequence is
exactly the one the spec recurrence produces over the sorted
(needed_packets, turn_order) pairs: the sorted list is a permutation of the
enumerated pairs in strictly increasing lexicographic order, the first
total is needed_packets_min * sharing_computers_count (the head of the
sorted list is the minimum, ties by turn order), each later total is
(needed_packets - prev_total) * (sharing_computers_count - k) + prev_total,
and each completion time is total * (header + payload) * 8 / (rate * 10^6)
+ start.  The source returns nothing for three or more files (IndexError);
for one or two files its heap array equals the sorted order and its line 90
to 92 recurrence coincides with the spec formulas. -/
theorem C2_output_matches_spec_recurrence (rate : ℚ) (sharing : ℤ) (start : ℚ)
    (files : List ℚ) (payload header : ℚ) (out : List (ℚ × ℕ))
    (h : calculate_transmission_time_statistical_multiplexing rate sharing start files
      payload header = some out) :
    ∃ sorted : List (ℤ × ℕ),
      List.Perm sorted ((neededPackets payload files).enum.map fun x => (x.2, x.1)) ∧
      List.Chain' (fun p q : ℤ × ℕ => p.1 < q.1 ∨ (p.1 = q.1 ∧ p.2 < q.2)) sorted ∧
      out = List.zipWith
        (fun tot p => ((tot : ℚ) * ((header + payload) * 8) / (rate * 1000 * 1000)
          + start, p.2))
        (spec_schedule_totals sharing sorted) sorted := by
  by_cases hp : payload = 0
  · simp [calculate_transmission_time_statistical_multiplexing, hp] at h
  by_cases hr : rate * 1000 * 1000 = 0
  · simp [calculate_transmission_time_statistical_multiplexing, hp, hr] at h
  rcases files with _ | ⟨a, _ | ⟨b, _ | ⟨c, tl⟩⟩⟩
  · simp [calculate_transmission_time_statistical_multiplexing] at h
  · rw [scheduler_one_file rate sharing start a payload header hp hr] at h
    obtain rfl : _ = out := Option.some_inj.mp h
    refine ⟨[(⌈a / payload⌉, 0)], ?_, ?_, ?_⟩
    · simp [neededPackets]
    · simp
    · simp [spec_schedule_totals]
  · rw [scheduler_two_files rate sharing start a b payload header hp hr] at h
    have henum : ((neededPackets payload [a, b]).enum.map fun x => (x.2, x.1)) =
        [(⌈a / payload⌉, 0), (⌈b / payload⌉, 1)] := by
      simp [neededPackets, List.enum, List.enumFrom]
    by_cases hlt : ⌈b / payload⌉ < ⌈a / payload⌉
    · rw [if_pos hlt] at h
      obtain rfl : _ = out := Option.some_inj.mp h
      refine ⟨[(⌈b / payload⌉, 1), (⌈a / payload⌉, 0)], ?_, ?_, ?_⟩
      · rw [henum]
        exact List.Perm.swap _ _ _
      · exact List.chain'_pair.mpr (Or.inl hlt)
      · simp [spec_schedule_totals, spec_schedule_totals_go]
    · rw [if_neg hlt] at h
      obtain rfl : _ = out := Option.some_inj.mp h
      refine ⟨[(⌈a / payload⌉, 0), (⌈b / payload⌉, 1)], ?_, ?_, ?_⟩
      · rw [henum]
      · refine List.chain'_pair.mpr ?_
        rcases lt_or_eq_of_le (not_lt.mp hlt) with h1 | h1
        · exact Or.inl h1
        · exact Or.inr ⟨h1, by norm_num⟩
      · simp [spec_schedule_totals, spec_schedule_totals_go]
  · rw [scheduler_three_or_more_files_none] at h
    exact absurd h (by simp)

theorem C2_output_matches_spec_recurrence_witness :
    ∃ sorted : List (ℤ × ℕ),
      List.Perm sorted ((neededPackets 1000 [2000, 3000]).enum.map fun x => (x.2, x.1)) ∧
      List.Chain' (fun p q : ℤ × ℕ => p.1 < q.1 ∨ (p.1 = q.1 ∧ p.2 < q.2)) sorted ∧
      [((1 : ℚ) / 250, (0 : ℕ)), (3 / 1000, 1)] = List.zipWith
        (fun tot p => ((tot : ℚ) * ((0 + 1000) * 8) / (8 * 1000 * 1000) + 0, p.2))
        (spec_schedule_totals 2 sorted) sorted := by
  have h : calculate_transmission_time_statistical_multiplexing 8 2 0 [2000, 3000] 1000 0 =
      some [(1 / 250, 0), (3 / 1000, 1)] := by
    rw [scheduler_two_files 8 2 0 2000 3000 1000 0 (by norm_num) (by norm_num)]
    norm_num [Int.ceil_eq_iff]
  exact C2_output_matches_spec_recurrence 8 2 0 [2000, 3000] 1000 0
    [(1 / 250, 0), (3 / 1000, 1)] h

/-- Claim C3 is refuted by the code: with two senders needing 2 and 3 packets
the first output time corresponds to 2 * 2 = 4 packets but the second to
(3 - 4) * 1 + 4 = 3 packets, because the remaining-packet subtraction
compares a single file count against the all-sender running total and goes
negative.  The completion times 4/1000 and 3/1000 are strictly decreasing. -/
theorem C3_completion_times_can_decrease :
    calculate_transmission_time_statistical_multiplexing 8 2 0 [2000, 3000] 1000 0 =
      some [(1 / 250, 0), (3 / 1000, 1)] ∧
    ¬ ((1 / 250 : ℚ) ≤ 3 / 1000) := by
  refine ⟨?_, by norm_num⟩
  rw [scheduler_two_files 8 2 0 2000 3000 1000 0 (by norm_num) (by norm_num)]
  norm_num [Int.ceil_eq_iff]

/-- Claim C5: on the demo fixture (2 computers, files of 3 MiB and 165 KiB,
payload 1000, header 24, rate 5.2 Mbps, start 0) the needed packet counts
are 3146 and 169, the output has exactly two pairs with turn order 1 first,
and the smaller file finishes strictly earlier. -/
theorem C5_demo_fixture :
    neededPackets 1000 [mibs_to_bytes 3, kibs_to_bytes 165] = [3146, 169] ∧
    calculate_transmission_time_statistical_multiplexing (26 / 5) 2 0
      [mibs_to_bytes 3, kibs_to_bytes 165] 1000 24 =
      some [(1664 / 3125, 1), (15488 / 3125, 0)] ∧
    (1664 / 3125 : ℚ) < 15488 / 3125 := by
  have hneed : neededPackets 1000 [mibs_to_bytes 3, kibs_to_bytes 165] = [3146, 169] := by
    simp only [neededPackets, List.map, mibs_to_bytes, kibs_to_bytes]
    norm_num [Int.ceil_eq_iff]
  refine ⟨hneed, ?_, by norm_num⟩
  rw [scheduler_two_files (26 / 5) 2 0 (mibs_to_bytes 3) (kibs_to_bytes 165) 1000 24
    (by norm_num) (by norm_num)]
  have hca : (⌈mibs_to_bytes 3 / 1000⌉ : ℤ) = 3146 := by
    rw [mibs_to_bytes]
    norm_num [Int.ceil_eq_iff]
  have hcb : (⌈kibs_to_bytes 165 / 1000⌉ : ℤ) = 169 := by
    rw [kibs_to_bytes]
    norm_num [Int.ceil_eq_iff]
  rw [hca, hcb]
  norm_num

/-- Claim C6: whenever two output entries come from files needing the same
packet count, the earlier output entry carries the smaller turn order.  The
source returns a sequence only for one or two files (three or more raise
IndexError at line 87); in the two-file tie case the second push does not
swap (the later tuple is not smaller), so the heap array keeps ascending
turn order. -/
theorem C6_equal_counts_ascending_turn_order (rate : ℚ) (sharing : ℤ) (start : ℚ)
    (files : List ℚ) (payload header : ℚ) (out : List (ℚ × ℕ))
    (h : calculate_transmission_time_statistical_multiplexing rate sharing start files
      payload header = some out)
    (i j : ℕ) (x y : ℚ × ℕ) (c : ℤ)
    (hij : i < j) (hi : out[i]? = some x) (hj : out[j]? = some y)
    (hcx : (neededPackets payload files)[x.2]? = some c)
    (hcy : (neededPackets payload files)[y.2]? = some c) :
    x.2 < y.2 := by
  by_cases hp : payload = 0
  · simp [calculate_transmission_time_statistical_multiplexing, hp] at h
  by_cases hr : rate * 1000 * 1000 = 0
  · simp [calculate_transmission_time_statistical_multiplexing, hp, hr] at h
  rcases files with _ | ⟨a, _ | ⟨b, _ | ⟨cc, tl⟩⟩⟩
  · simp [calculate_transmission_time_statistical_multiplexing] at h
  · rw [scheduler_one_file rate sharing start a payload header hp hr] at h
    obtain rfl : _ = out := Option.some_inj.mp h
    have hj1 : 1 ≤ j := by omega
    rw [List.getElem?_eq_none (by simpa using hj1)] at hj
    exact absurd hj (by simp)
  · rw [scheduler_two_files rate sharing start a b payload header hp hr] at h
    have hj1 : j = 1 := by
      by_contra hne
      have h2 : 2 ≤ j := by omega
      have : out.length ≤ j := by
        have hlen : out.length = 2 := by
          by_cases hlt : ⌈b / payload⌉ < ⌈a / payload⌉
          · rw [if_pos hlt] at h
            obtain rfl : _ = out := Option.some_inj.mp h
            simp
          · rw [if_neg hlt] at h
            obtain rfl : _ = out := Option.some_inj.mp h
            simp
        omega
      rw [List.getElem?_eq_none this] at hj
      exact absurd hj (by simp)
    have hi0 : i = 0 := by omega
    subst hj1; subst hi0
    by_cases hlt : ⌈b / payload⌉ < ⌈a / payload⌉
    · rw [if_pos hlt] at h
      obtain rfl : _ = out := Option.some_inj.mp h
      simp only [List.getElem?_cons_zero, List.getElem?_cons_succ, Option.some_inj] at hi hj
      subst hi; subst hj
      simp only [neededPackets, List.map] at hcx hcy
      simp at hcx hcy
      rw [hcx, hcy] at hlt
      exact absurd hlt (lt_irrefl c)
    · rw [if_neg hlt] at h
      obtain rfl : _ = out := Option.some_inj.mp h
      simp only [List.getElem?_cons_zero, List.getElem?_cons_succ, Option.some_inj] at hi hj
      subst hi; subst hj
      norm_num
  · rw [scheduler_three_or_more_files_none] at h
    exact absurd h (by simp)

theorem C6_equal_counts_ascending_turn_order_witness :
    calculate_transmission_time_statistical_multiplexing 8 2 0 [1000, 1000] 1000 0 =
      some [(1 / 500, 0), (1 / 1000, 1)] ∧ (0 : ℕ) < 1 := by
  have h : calculate_transmission_time_statistical_multiplexing 8 2 0 [1000, 1000] 1000 0 =
      some [(1 / 500, 0), (1 / 1000, 1)] := by
    rw [scheduler_two_files 8 2 0 1000 1000 1000 0 (by norm_num) (by norm_num)]
    norm_num [Int.ceil_eq_iff]
  have hne : neededPackets 1000 [1000, 1000] = [1, 1] := by
    simp only [neededPackets, List.map]
    norm_num [Int.ceil_eq_iff]
  refine ⟨h, ?_⟩
  exact C6_equal_counts_ascending_turn_order 8 2 0 [1000, 1000] 1000 0
    [(1 / 500, 0), (1 / 1000, 1)] h 0 1 (1 / 500, 0) (1 / 1000, 1) 1
    (by norm_num) (by simp) (by simp) (by rw [hne]; simp) (by rw [hne]; simp)

/-- Claim C4: every needed packet count is exactly the ceiling of file size
over payload size, and when the size is an exact integer multiple k of the
payload the count is exactly k with no extra packet. -/
theorem C4_needed_packets_exact (files : List ℚ) (payload s : ℚ) (i : ℕ)
    (hs : files[i]? = some s) :
    (neededPackets payload files)[i]? = some ⌈s / payload⌉ ∧
    (∀ k : ℤ, payload ≠ 0 → s = (k : ℚ) * payload →
      (neededPackets payload files)[i]? = some k) := by
  constructor
  · simp [neededPackets, List.getElem?_map, hs]
  · intro k hp hks
    have hk : ((k : ℚ) * payload) / payload = (k : ℚ) := mul_div_cancel_right₀ _ hp
    simp [neededPackets, List.getElem?_map, hs, hks, hk, Int.ceil_intCast]

theorem C4_needed_packets_exact_witness :
    (neededPackets 1000 [2000])[0]? = some ⌈(2000 : ℚ) / 1000⌉ ∧
    (neededPackets 1000 [2000])[0]? = some 2 :=
  ⟨(C4_needed_packets_exact [2000] 1000 2000 0 (by decide)).1,
   (C4_needed_packets_exact [2000] 1000 2000 0 (by decide)).2 2 (by norm_num) (by norm_num)⟩

/-- Claim C7: for every length and (nonzero) rate, calculate_transmission_time
returns length * 8 / (rate * 1000000) * 1000 milliseconds, and at
length 1000 bytes and rate 1000 Mbps the result is 0.008 ms. -/
theorem C7_transmission_time_formula (len rate : ℚ) (h : rate ≠ 0) :
    calculate_transmission_time len rate = some (len * 8 / (rate * 1000000) * 1000) ∧
    calculate_transmission_time 1000 1000 = some (8 / 1000) := by
  constructor
  · have hr : rate * 1000 * 1000 ≠ 0 := by
      simp [mul_eq_zero, h]
    rw [show rate * 1000000 = rate * 1000 * 1000 by ring]
    simp [calculate_transmission_time, hr]
  · norm_num [calculate_transmission_time]

theorem C7_transmission_time_formula_witness :
    calculate_transmission_time 1000 1000 = some (1000 * 8 / (1000 * 1000000) * 1000) :=
  (C7_transmission_time_formula 1000 1000 (by norm_num)).1

/-- Claim C8: with no window the utilization equals exactly
transmission_time / (transmission_time + rtt), with transmission_time the
formula of calculate_transmission_time; with a window the result is exactly
that no-window value multiplied by window_size / length (fractional); with
window 5020 and length 1000 the factor is 502/100 = 5.02. -/
theorem C8_window_scales_utilization (len rate rtt w : ℚ) (hr : rate ≠ 0) (hlen : len ≠ 0)
    (ht : len * 8 / (rate * 1000 * 1000) * 1000 + rtt ≠ 0) :
    calculate_network_utilization len rate rtt none =
      some (len * 8 / (rate * 1000 * 1000) * 1000 /
        (len * 8 / (rate * 1000 * 1000) * 1000 + rtt)) ∧
    calculate_network_utilization len rate rtt (some w) =
      some (len * 8 / (rate * 1000 * 1000) * 1000 /
        (len * 8 / (rate * 1000 * 1000) * 1000 + rtt) * (w / len)) ∧
    (len = 1000 → w = 5020 →
      calculate_network_utilization len rate rtt (some w) =
        some (len * 8 / (rate * 1000 * 1000) * 1000 /
          (len * 8 / (rate * 1000 * 1000) * 1000 + rtt) * (502 / 100))) := by
  have hrr : rate * 1000 * 1000 ≠ 0 := by simp [mul_eq_zero, hr]
  refine ⟨?_, ?_, ?_⟩
  · simp [calculate_network_utilization, calculate_transmission_time, hrr, ht]
  · simp [calculate_network_utilization, calculate_transmission_time, hrr, ht, hlen]
  · intro h1 h2
    subst h1; subst h2
    simp [calculate_network_utilization, calculate_transmission_time, hrr, ht, hlen]
    norm_num

theorem C8_window_scales_utilization_witness :
    calculate_network_utilization 1000 1000 30 none =
      some (1000 * 8 / (1000 * 1000 * 1000) * 1000 /
        (1000 * 8 / (1000 * 1000 * 1000) * 1000 + 30)) ∧
    calculate_network_utilization 1000 1000 30 (some 5020) =
      some (1000 * 8 / (1000 * 1000 * 1000) * 1000 /
        (1000 * 8 / (1000 * 1000 * 1000) * 1000 + 30) * (5020 / 1000)) :=
  ⟨(C8_window_scales_utilization 1000 1000 30 5020 (by norm_num) (by norm_num)
      (by norm_num)).1,
   (C8_window_scales_utilization 1000 1000 30 5020 (by norm_num) (by norm_num)
      (by norm_num)).2.1⟩

/-- Claim C9 counterexamples.  First, with length 0, no window, and rtt 30
the code returns the value 0 with no division by zero, although the claim
says every length-0 input divides by zero.  Second and third, the other
direction of the claim also fails: with nonzero length (1000) and nonzero
rate but rtt = -0.008 the total time is 0 and the utilization division is
by zero, and likewise with negative length -1000 and positive rtt 0.008,
so nonzero length and rate alone do not guarantee a returned value. -/
theorem C9_counterexample_error_conditions :
    calculate_network_utilization 0 1000 30 none = some 0 ∧
    calculate_network_utilization 1000 1000 (-(8 / 1000)) none = none ∧
    calculate_network_utilization (-1000) 1000 (8 / 1000) none = none := by
  refine ⟨?_, ?_, ?_⟩
  · norm_num [calculate_network_utilization, calculate_transmission_time]
  · norm_num [calculate_network_utilization, calculate_transmission_time]
  · norm_num [calculate_network_utilization, calculate_transmission_time]

/-- Claim C9 amended: a zero rate always divides by zero (in the
transmission-time conversion, before anything else).  With nonzero rate, an
input with length 0 divides by zero exactly when a window is provided or
rtt is 0; with no window and nonzero rtt it returns 0.  Nonzero length and
rate alone do not prevent division by zero (transmission_time + rtt can be
0), but for positive length, positive rate and nonnegative rtt no division
by zero occurs and a value is returned. -/
theorem C9_division_by_zero_characterization :
    (∀ (len rtt : ℚ) (wopt : Option ℚ),
      calculate_network_utilization len 0 rtt wopt = none) ∧
    (∀ rate rtt w : ℚ, rate ≠ 0 →
      calculate_network_utilization 0 rate rtt (some w) = none) ∧
    (∀ (rate : ℚ) (wopt : Option ℚ), rate ≠ 0 →
      calculate_network_utilization 0 rate 0 wopt = none) ∧
    (∀ rate rtt : ℚ, rate ≠ 0 → rtt ≠ 0 →
      calculate_network_utilization 0 rate rtt none = some 0) ∧
    (∀ (len rate rtt : ℚ) (wopt : Option ℚ), 0 < len → 0 < rate → 0 ≤ rtt →
      ∃ v, calculate_network_utilization len rate rtt wopt = some v) := by
  refine ⟨?_, ?_, ?_, ?_, ?_⟩
  · intro len rtt wopt
    simp [calculate_network_utilization, calculate_transmission_time]
  · intro rate rtt w hr
    have hrr : rate * 1000 * 1000 ≠ 0 := by simp [mul_eq_zero, hr]
    by_cases hrtt : rtt = 0 <;>
      simp [calculate_network_utilization, calculate_transmission_time, hrr, hrtt]
  · intro rate wopt hr
    have hrr : rate * 1000 * 1000 ≠ 0 := by simp [mul_eq_zero, hr]
    simp [calculate_network_utilization, calculate_transmission_time, hrr]
  · intro rate rtt hr hrtt
    have hrr : rate * 1000 * 1000 ≠ 0 := by simp [mul_eq_zero, hr]
    simp [calculate_network_utilization, calculate_transmission_time, hrr, hrtt]
  · intro len rate rtt wopt hlen hrate hrtt
    have hrr : rate * 1000 * 1000 ≠ 0 := by positivity
    have htpos : 0 < len * 8 / (rate * 1000 * 1000) * 1000 := by positivity
    have ht : len * 8 / (rate * 1000 * 1000) * 1000 + rtt ≠ 0 := by positivity
    cases wopt with
    | none =>
      exact ⟨len * 8 / (rate * 1000 * 1000) * 1000 /
          (len * 8 / (rate * 1000 * 1000) * 1000 + rtt),
        by simp [calculate_network_utilization, calculate_transmission_time, hrr, ht]⟩
    | some w =>
      exact ⟨len * 8 / (rate * 1000 * 1000) * 1000 /
          (len * 8 / (rate * 1000 * 1000) * 1000 + rtt) * (w / len),
        by simp [calculate_network_utilization, calculate_transmission_time, hrr, ht,
          ne_of_gt hlen]⟩

theorem C9_division_by_zero_characterization_witness :
    calculate_network_utilization 7 0 3 none = none ∧
    calculate_network_utilization 0 1 1 (some 5) = none ∧
    calculate_network_utilization 0 1 0 none = none ∧
    calculate_network_utilization 0 1 1 none = some 0 ∧
    ∃ v, calculate_network_utilization 1 1 1 none = some v :=
  ⟨C9_division_by_zero_characterization.1 7 3 none,
   C9_division_by_zero_characterization.2.1 1 1 5 (by norm_num),
   C9_division_by_zero_characterization.2.2.1 1 none (by norm_num),
   C9_division_by_zero_characterization.2.2.2.1 1 1 (by norm_num) (by norm_num),
   C9_division_by_zero_characterization.2.2.2.2 1 1 1 none (by norm_num) (by norm_num)
     (by norm_num)⟩

/-- Claim C10 counterexample: on the empty file list the code raises
IndexError at line 71 instead of returning a sequence of 0 pairs, so the
claim does not hold for every input list. -/
theorem C10_counterexample_empty_list :
    calculate_transmission_time_statistical_multiplexing 8 2 0 [] 1000 0 = none := by
  simp [calculate_transmission_time_statistical_multiplexing]

/-- Claim C10 amended: for every input of exactly one or two files (with
nonzero payload and link rate, so neither division raises), the scheduler
returns exactly n pairs whose turn orders are a permutation of 0..n-1,
regardless of ties or duplicates; the empty list and every list of three
or more files make the code raise IndexError (line 71, and the
never-appended totals list at line 87) and return no sequence at all. -/
theorem C10_output_count_and_permutation :
    (∀ (rate : ℚ) (sharing : ℤ) (start : ℚ) (files : List ℚ) (payload header : ℚ),
      (files.length = 1 ∨ files.length = 2) → payload ≠ 0 → rate ≠ 0 →
      ∃ out, calculate_transmission_time_statistical_multiplexing rate sharing start files
          payload header = some out ∧
        out.length = files.length ∧
        List.Perm (out.map Prod.snd) (List.range files.length)) ∧
    (∀ (rate : ℚ) (sharing : ℤ) (start : ℚ) (files : List ℚ) (payload header : ℚ),
      3 ≤ files.length →
      calculate_transmission_time_statistical_multiplexing rate sharing start files
        payload header = none) := by
  constructor
  · intro rate sharing start files payload header hlen hp hr
    have hrr : rate * 1000 * 1000 ≠ 0 := by simp [mul_eq_zero, hr]
    rcases files with _ | ⟨a, _ | ⟨b, _ | ⟨c, tl⟩⟩⟩
    · simp at hlen
    · refine ⟨_, scheduler_one_file rate sharing start a payload header hp hrr, ?_, ?_⟩
      · rfl
      · have hr1 : List.range (a :: ([] : List ℚ)).length = [0] := rfl
        rw [hr1]
        exact List.Perm.refl _
    · have hr2 : List.range (a :: b :: ([] : List ℚ)).length = [0, 1] := rfl
      have hsch := scheduler_two_files rate sharing start a b payload header hp hrr
      by_cases hlt : ⌈b / payload⌉ < ⌈a / payload⌉
      · rw [if_pos hlt] at hsch
        exact ⟨_, hsch, rfl, by rw [hr2]; exact List.Perm.swap 0 1 []⟩
      · rw [if_neg hlt] at hsch
        exact ⟨_, hsch, rfl, by rw [hr2]; exact List.Perm.refl _⟩
    · simp at hlen
  · intro rate sharing start files payload header hlen
    rcases files with _ | ⟨a, _ | ⟨b, _ | ⟨c, tl⟩⟩⟩
    · simp at hlen
    · simp at hlen
    · simp at hlen
    · exact scheduler_three_or_more_files_none rate sharing start a b c tl payload header

theorem C10_output_count_and_permutation_witness :
    (∃ out, calculate_transmission_time_statistical_multiplexing 8 2 0 [7000, 7000] 1000 0 =
        some out ∧
      out.length = 2 ∧
      List.Perm (out.map Prod.snd) (List.range 2)) ∧
    calculate_transmission_time_statistical_multiplexing 8 3 0 [7000, 5000, 3000] 1000 0 =
      none := by
  constructor
  · simpa using C10_output_count_and_permutation.1 8 2 0 [7000, 7000] 1000 0 (by simp)
      (by norm_num) (by norm_num)
  · exact C10_output_count_and_permutation.2 8 3 0 [7000, 5000, 3000] 1000 0 (by simp)
